import Mathlib

/-!
# Ship Scores Portal — verification of the catalog / lazy-cache / filter core

Shallow embedding of `src/shipScores.js`:

* the lazy inspection cache (`__InspectionCache`, `loadInspectionHistoryForVessel`)
  is modelled as a step semantics on an explicit `CacheState`; promises are
  identified by natural-number ids and their settlement is a separate step,
  mirroring the fact that `.then` / `.catch` handlers run strictly after the
  synchronous body of the call (microtask semantics);
* the row post-processing done in the success handler (`isWithinLastYears`,
  `dateOnly`, `formatScore`, descending sort) is modelled over parsed
  `YYYY-MM-DD` date triples: for well-formed UTC ISO timestamps,
  `Date.parse(iso) >= Date.UTC(nowY - years, nowM, nowD)` holds exactly when
  the date part of `iso` is lexicographically at least `(nowY-years, nowM, nowD)`,
  because the cutoff is a UTC midnight;
* the liner/ship tree (`setupLiners` cascade, `applyFilter`) is modelled as a
  pure transformation on lists of nodes carrying the `open` flag (`isOpen`,
  since `open` is a Lean keyword) and the `style.display` visibility flag.
-/

namespace ShipScores

/-! ## String helpers from the source

The JS string primitives (`trim`, `replace`, `slice`, `toLowerCase`,
`indexOf`) are modelled over character lists so that every definition is
kernel-evaluable on concrete inputs. -/

/-- JS `String.prototype.trim`: drop leading and trailing whitespace. -/
def jsTrim (s : String) : String :=
  String.mk (((s.toList.dropWhile Char.isWhitespace).reverse.dropWhile
    Char.isWhitespace).reverse)

/-- Source `normalizeGuid`: `String(g || "").trim().replace(/[{}]/g, "")`.
The global regex replace of the single-character class is the removal of
every brace character. -/
def normalizeGuid (g : String) : String :=
  String.mk ((jsTrim g).toList.filter (fun c => !(c = '\x7b' || c = '\x7d')))

/-- Source `dateOnly`: `s.length >= 10 ? s.slice(0, 10) : s`. -/
def dateOnly (s : String) : String :=
  if s.length ≥ 10 then String.mk (s.toList.take 10) else s

/-- Source `formatScore` for the numeric-or-null `ethi_inspectionscore` OData field:
null-ish values render as `""`, a (finite) number `n` renders as `"n/100"`. -/
def formatScore : Option Int → String
  | none => ""
  | some n => toString n ++ "/100"

/-- A calendar date `(year, month, day)`; the date part of an ISO timestamp,
and the argument of `Date.UTC(...)` in `isWithinLastYears`. -/
structure Date3 where
  y : Nat
  m : Nat
  d : Nat
deriving DecidableEq

/-- Lexicographic `≤` on calendar dates (the order induced by
millisecond timestamps of UTC midnights). -/
def date3Le (a b : Date3) : Bool :=
  decide (a.y < b.y) ||
    (decide (a.y = b.y) &&
      (decide (a.m < b.m) || (decide (a.m = b.m) && decide (a.d ≤ b.d))))

/-- Numeric value of a decimal digit character. -/
def digitVal (c : Char) : Option Nat :=
  if c.isDigit then some (c.toNat - 48) else none

/-- Parse the `YYYY-MM-DD` prefix of an ISO timestamp; `none` models a string
on which `Date.parse` yields `NaN`. -/
def parseYMD (s : String) : Option Date3 :=
  match s.toList with
  | c1 :: c2 :: c3 :: c4 :: '-' :: c5 :: c6 :: '-' :: c7 :: c8 :: _ => do
    let y1 ← digitVal c1
    let y2 ← digitVal c2
    let y3 ← digitVal c3
    let y4 ← digitVal c4
    let m1 ← digitVal c5
    let m2 ← digitVal c6
    let d1 ← digitVal c7
    let d2 ← digitVal c8
    some ⟨y1 * 1000 + y2 * 100 + y3 * 10 + y4, m1 * 10 + m2, d1 * 10 + d2⟩
  | _ => none

/-- Source `isWithinLastYears(isoDateTime, years)` relative to today's date `today`:
false on a null/empty/unparseable timestamp, otherwise compares the date part
against the cutoff `Date.UTC(today.y - years, today.m, today.d)`. -/
def isWithinLastYears (iso : Option String) (years : Nat) (today : Date3) : Bool :=
  match iso with
  | none => false
  | some s =>
    match parseYMD s with
    | none => false
    | some dt => date3Le ⟨today.y - years, today.m, today.d⟩ dt

/-! ## Detail rows and the success-handler row pipeline -/

/-- A `DetailRow`: `{date: string, score: string}` as cached and rendered. -/
structure DetailRow where
  date : String
  score : String
deriving DecidableEq

/-- One raw incident record from the OData response, restricted to the two
fields the success handler reads. -/
structure RawIncident where
  ethi_inspectionenddateandtime : Option String
  ethi_inspectionscore : Option Int
deriving DecidableEq

/-- The per-row body of the success handler's `rows.forEach` loop: skip rows
with a null/empty date (`if (!iso) return`), skip rows outside the last five
years, otherwise produce the formatted `{date, score}` row. -/
def rowOut (today : Date3) (r : RawIncident) : Option DetailRow :=
  match r.ethi_inspectionenddateandtime with
  | none => none
  | some iso =>
    if isWithinLastYears (some iso) 5 today then
      some ⟨dateOnly iso, formatScore r.ethi_inspectionscore⟩
    else none

/-- JS string `<`: lexicographic comparison by character code. -/
def charListLt : List Char → List Char → Bool
  | [], [] => false
  | [], _ :: _ => true
  | _ :: _, [] => false
  | a :: as, b :: bs => decide (a < b) || (decide (a = b) && charListLt as bs)

/-- The JS comparator `(a,b) => a.date < b.date ? 1 : a.date > b.date ? -1 : 0`
orders rows by strictly descending date; `Array.sort` is stable, which is
exactly `List.insertionSort` with the strict relation `b.date < a.date`. -/
def histDesc (a b : DetailRow) : Prop :=
  charListLt b.date.toList a.date.toList = true

instance : DecidableRel histDesc := fun a b => by
  unfold histDesc; infer_instance

/-- The whole success handler pipeline of `loadInspectionHistoryForVessel`:
the `forEach`/`push` accumulation over the raw rows followed by the
descending-by-date sort. -/
def processIncidentRows (rows : List RawIncident) (today : Date3) : List DetailRow :=
  let outRows := rows.foldl (fun acc r =>
    match rowOut today r with
    | none => acc
    | some dr => acc ++ [dr]) []
  List.insertionSort histDesc outRows

/-! ## The lazy inspection cache

`__InspectionCache` maps a normalized vessel id to
`{ loaded, loading, rows, promise }`.  A pending promise is identified by a
natural number; `CacheState.inflight` records which vessel id a pending
fetch (one call of `fetchIncidentsWithFallback`) belongs to, and
`CacheState.fetchCount` counts how many such fetches were ever started per
vessel id.  Settlement of a fetch is a separate step (`settleSuccess` /
`settleFailure`, the `.then` / `.catch` handlers), which in JS always runs
strictly after the synchronous body of `loadInspectionHistoryForVessel`. -/

/-- One entry of `__InspectionCache`. -/
structure CacheEntry where
  loaded : Bool
  loading : Bool
  rows : List DetailRow
  promise : Option Nat
deriving DecidableEq

/-- The value a caller's promise fulfills with: `{rows}` or `{rows, error:true}`.
A missing `error` field is `false`. -/
structure FetchResult where
  rows : List DetailRow
  error : Bool
deriving DecidableEq

/-- What a call to `loadInspectionHistoryForVessel` hands back: an already
resolved value (`Promise.resolve(...)`) or a pending promise. -/
inductive CallResult where
  | value (v : FetchResult)
  | pending (p : Nat)
deriving DecidableEq

/-- How a settled fetch promise ends: fulfilled with a result value, or
rejected.  The handlers in the source always return (never re-throw), so the
model only ever produces `fulfilled`. -/
inductive Outcome where
  | fulfilled (v : FetchResult)
  | rejectedErr
deriving DecidableEq

/-- The spec's four cache states, read off a cache entry: a missing entry is
`idle`, `loaded:true` is `loaded`, `loading:true` is `loading`, and an entry
with both flags false (written by the `.catch` handler) is `failed`. -/
inductive SpecState where
  | idle
  | loadingS
  | loadedS
  | failedS
deriving DecidableEq

/-- Classify a cache slot into the spec's state names. -/
def specStateOf : Option CacheEntry → SpecState
  | none => SpecState.idle
  | some c =>
    if c.loaded then SpecState.loadedS
    else if c.loading then SpecState.loadingS
    else SpecState.failedS

/-- Global state of the lazy cache. -/
structure CacheState where
  cache : String → Option CacheEntry
  fetchCount : String → Nat
  inflight : Nat → Option String
  nextId : Nat

/-- State at module load: empty cache, no fetches. -/
def initState : CacheState :=
  { cache := fun _ => none, fetchCount := fun _ => 0,
    inflight := fun _ => none, nextId := 0 }

/-- The miss path of `loadInspectionHistoryForVessel`: start
`fetchIncidentsWithFallback(vesselId)`, obtaining a fresh pending promise
`p`, and store `{ loaded:false, loading:true, rows:[], promise:p }`. -/
def startFetch (vesselId : String) (s : CacheState) : CallResult × CacheState :=
  let p := s.nextId
  (CallResult.pending p,
    { cache := fun k => if k = vesselId
        then some ⟨false, true, [], some p⟩ else s.cache k,
      fetchCount := fun k => if k = vesselId
        then s.fetchCount k + 1 else s.fetchCount k,
      inflight := fun i => if i = p then some vesselId else s.inflight i,
      nextId := s.nextId + 1 })

/-- Source `loadInspectionHistoryForVessel(vesselIdRaw)`: normalize the id; an empty
id resolves immediately with `{rows: []}`; a loaded entry resolves with the
cached rows; a loading entry with a promise returns that same promise;
otherwise a new fetch is started. -/
def loadInspectionHistoryForVessel (raw : String) (s : CacheState) :
    CallResult × CacheState :=
  let vesselId := normalizeGuid raw
  if vesselId = "" then (CallResult.value ⟨[], false⟩, s)
  else
    match s.cache vesselId with
    | some c =>
      if c.loaded then (CallResult.value ⟨c.rows, false⟩, s)
      else
        match c.loading, c.promise with
        | true, some p => (CallResult.pending p, s)
        | true, none => startFetch vesselId s
        | false, _ => startFetch vesselId s
    | none => startFetch vesselId s

/-- The `.then` handler of a pending fetch `p` that resolved with raw rows:
process the rows, store `{ loaded:true, loading:false, rows:outRows }`, and
fulfill every joined caller with `{rows: outRows}`. -/
def settleSuccess (p : Nat) (rawRows : List RawIncident) (today : Date3)
    (s : CacheState) : Option (Outcome × CacheState) :=
  match s.inflight p with
  | none => none
  | some v =>
    let outRows := processIncidentRows rawRows today
    some (Outcome.fulfilled ⟨outRows, false⟩,
      { s with
        cache := fun k => if k = v then some ⟨true, false, outRows, none⟩
          else s.cache k,
        inflight := fun i => if i = p then none else s.inflight i })

/-- The `.catch` handler of a pending fetch `p` whose request failed: store
`{ loaded:false, loading:false, rows:[] }` (deliberately NOT loaded, so the
next expand retries) and fulfill every joined caller with
`{rows: [], error: true}` — the handler returns a value, it never
re-throws, so the promise is fulfilled, not rejected. -/
def settleFailure (p : Nat) (s : CacheState) : Option (Outcome × CacheState) :=
  match s.inflight p with
  | none => none
  | some v =>
    some (Outcome.fulfilled ⟨[], true⟩,
      { s with
        cache := fun k => if k = v then some ⟨false, false, [], none⟩
          else s.cache k,
        inflight := fun i => if i = p then none else s.inflight i })

/-- The first of two back-to-back calls for the same raw id. -/
def firstCall (raw : String) (s : CacheState) : CallResult × CacheState :=
  loadInspectionHistoryForVessel raw s

/-- The second of two back-to-back calls for the same raw id. -/
def secondCall (raw : String) (s : CacheState) : CallResult × CacheState :=
  loadInspectionHistoryForVessel raw (loadInspectionHistoryForVessel raw s).2

/-! ## The liner/ship tree and the search filter

A ship is a `details.browse-tree__ship` element: its summary label text, its
`open` property (`isOpen` here, `open` being a Lean keyword) and its
visibility (`style.display` of `""` versus `"none"`).  A liner additionally
owns its list of ships. -/

/-- One ship (item) node. -/
structure ShipNode where
  name : String
  isOpen : Bool
  visible : Bool
deriving DecidableEq

/-- One liner (group) node with its child ships. -/
structure LinerNode where
  name : String
  isOpen : Bool
  visible : Bool
  ships : List ShipNode
deriving DecidableEq

/-- JS `String.prototype.toLowerCase` (ASCII case fold, as used on the labels). -/
def lowerStr (s : String) : String :=
  String.mk (s.toList.map Char.toLower)

/-- Does `needle` lead `hay`? -/
def leadsWith : List Char → List Char → Bool
  | [], _ => true
  | _ :: _, [] => false
  | a :: as, b :: bs => decide (a = b) && leadsWith as bs

/-- Does `needle` occur somewhere in `hay`?  (Empty needle always occurs.) -/
def occursIn (needle : List Char) : List Char → Bool
  | [] => leadsWith needle []
  | c :: rest => leadsWith needle (c :: rest) || occursIn needle rest

/-- Model of `hay.indexOf(q) !== -1` (true for the empty query, whose
`indexOf` is 0). -/
def idxHit (hay q : String) : Bool :=
  occursIn q.toList hay.toList

/-- Source `var match = !q || shipName.indexOf(q) !== -1` with
`shipName = textOf(summary).toLowerCase()`. -/
def shipVis (q : String) (linerMatch : Bool) (name : String) : Bool :=
  decide (q = "") || linerMatch || (decide (q = "") || idxHit (lowerStr name) q)

/-- Per-ship body of the `shipMatches.forEach` loop on a visible liner:
`shipVisible = !q || linerMatch || match`; a visible ship gets
`style.display=""` and keeps its `open`, an invisible one gets
`style.display="none"` and `open=false`. -/
def processShip (q : String) (linerMatch : Bool) (sh : ShipNode) : ShipNode :=
  if shipVis q linerMatch sh.name then { sh with visible := true }
  else { sh with visible := false, isOpen := false }

/-- Source `var linerMatch = !q || linerName.indexOf(q) !== -1`. -/
def linerMatchOf (q : String) (l : LinerNode) : Bool :=
  decide (q = "") || idxHit (lowerStr l.name) q

/-- Source `var anyShipMatch = shipMatches.some(m => m.match)`. -/
def anyShipMatchOf (q : String) (l : LinerNode) : Bool :=
  l.ships.any fun sh => decide (q = "") || idxHit (lowerStr sh.name) q

/-- Source `var linerVisible = !q || linerMatch || anyShipMatch`. -/
def linerVisOf (q : String) (l : LinerNode) : Bool :=
  decide (q = "") || linerMatchOf q l || anyShipMatchOf q l

/-- The per-liner body of `applyFilter`'s `linerEls().forEach` loop, given the
already-normalized query `q`.  Returns the updated liner, whether it counted
towards `matchedLiners`, and its contribution to `matchedShips`.

* invisible liner: `display="none"`, `open=false`, every ship gets
  `open=false` and `display=""`, nothing is counted;
* visible liner, non-empty query: ships processed by `processShip`,
  `matchedShips` counts the visible ones, `liner.open=true`;
* visible liner, empty query: as above but `liner.open=false` and every ship
  additionally gets `open=false`. -/
def applyFilterLiner (q : String) (l : LinerNode) : LinerNode × Bool × Nat :=
  if linerVisOf q l then
    let ships1 := l.ships.map (processShip q (linerMatchOf q l))
    let ms := ships1.countP (fun sh => sh.visible)
    if q = "" then
      ({ l with
          visible := true
          isOpen := false
          ships := ships1.map fun sh => { sh with isOpen := false } }, true, ms)
    else
      ({ l with visible := true, isOpen := true, ships := ships1 }, true, ms)
  else
    ({ l with
        visible := false
        isOpen := false
        ships := l.ships.map fun sh => { sh with isOpen := false, visible := true } },
     false, 0)

/-- The whole `forEach` over the liners: updated tree plus the
`matchedLiners` and `matchedShips` tallies. -/
def applyFilterTree (q : String) : List LinerNode → List LinerNode × Nat × Nat
  | [] => ([], 0, 0)
  | l :: rest =>
    let pl := applyFilterLiner q l
    let pr := applyFilterTree q rest
    (pl.1 :: pr.1, (if pl.2.1 then 1 else 0) + pr.2.1, pl.2.2 + pr.2.2)

/-- Source `applyFilter(raw)`: normalize `var q = (raw || "").trim().toLowerCase()`
and run the pass over every liner. -/
def applyFilter (raw : String) (tree : List LinerNode) :
    List LinerNode × Nat × Nat :=
  applyFilterTree (lowerStr (jsTrim raw)) tree

/-- What clearing the filter does to a ship: visible and collapsed. -/
def resetShip (sh : ShipNode) : ShipNode :=
  { sh with visible := true, isOpen := false }

/-- What clearing the filter does to a liner: visible and collapsed, all
ships reset. -/
def resetLiner (l : LinerNode) : LinerNode :=
  { l with visible := true, isOpen := false, ships := l.ships.map resetShip }

/-! ## Group toggling (`setupLiners`) -/

/-- The liner `toggle` listener combined with the DOM update that fired it:
the liner at index `i` gets `open := targetOpen`, and when that is `false`
the handler cascades `ship.open = false` to every child ship.  A missing
index (no such node) changes nothing. -/
def toggleGroup (tree : List LinerNode) (i : Nat) (targetOpen : Bool) :
    List LinerNode :=
  match tree[i]? with
  | none => tree
  | some l =>
    tree.set i
      (if targetOpen then { l with isOpen := true }
       else { l with
                isOpen := false
                ships := l.ships.map fun sh => { sh with isOpen := false } })

/-- The page's whole mutable state: the tree plus the inspection cache. -/
structure PageState where
  tree : List LinerNode
  insp : CacheState

/-- Running `toggleGroup` on the page: the handler only touches the tree, the
inspection cache is carried through untouched. -/
def toggleGroupPage (ps : PageState) (i : Nat) (targetOpen : Bool) : PageState :=
  { ps with tree := toggleGroup ps.tree i targetOpen }

/-! ## Concrete fixtures (the spec's scenario catalog) -/

/-- The liner of scenarios A/B: `GroupX` with ships `Ship1`, `Ship2`,
initially collapsed and visible. -/
def linerGX : LinerNode :=
  ⟨"GroupX", false, true, [⟨"Ship1", false, true⟩, ⟨"Ship2", false, true⟩]⟩

/-- The catalog of scenarios A/B. -/
def tree0 : List LinerNode := [linerGX]

/-- A cache state holding a loaded entry for `shipa`, as left behind by a
successful fetch. -/
def loadedShipA : CacheState :=
  { cache := fun k =>
      if k = "shipa" then some ⟨true, false, [⟨"2025-03-15", "98/100"⟩], none⟩
      else none,
    fetchCount := fun k => if k = "shipa" then 1 else 0,
    inflight := fun _ => none,
    nextId := 1 }

/-- A cache state holding a failed entry for `shipB`, as written by the
`.catch` handler of a first, failed fetch. -/
def failedShipB : CacheState :=
  { cache := fun k => if k = "shipB" then some ⟨false, false, [], none⟩ else none,
    fetchCount := fun k => if k = "shipB" then 1 else 0,
    inflight := fun _ => none,
    nextId := 1 }

example : normalizeGuid (" \x7bAB-12\x7d ") = "AB-12" := by decide
example : normalizeGuid ("  \x7b\x7d ") = "" := by decide
example : parseYMD ("2025-03-15T10:00:00Z") = some ⟨2025, 3, 15⟩ := by decide
example : isWithinLastYears (some ("2025-03-15T10:00:00Z")) 5 ⟨2026, 10, 11⟩ = true := by decide
example : isWithinLastYears (some ("2000-01-01T00:00:00Z")) 5 ⟨2026, 10, 11⟩ = false := by decide
example :
    processIncidentRows
      [⟨some ("2020-01-01T00:00:00Z"), some 77⟩,
       ⟨some ("2025-03-15T10:00:00Z"), some 98⟩,
       ⟨none, some 50⟩,
       ⟨some ("2026-01-02T00:00:00Z"), none⟩] ⟨2026, 10, 11⟩
      = [⟨"2026-01-02", ""⟩, ⟨"2025-03-15", "98/100"⟩] := by decide

example :
    applyFilter ("ship1") tree0 =
      ([⟨"GroupX", true, true, [⟨"Ship1", false, true⟩, ⟨"Ship2", false, false⟩]⟩],
       1, 1) := by decide

example :
    applyFilter ("groupx") tree0 =
      ([⟨"GroupX", true, true, [⟨"Ship1", false, true⟩, ⟨"Ship2", false, true⟩]⟩],
       1, 2) := by decide

example :
    applyFilter ("  ") (applyFilter ("ship1") tree0).1 =
      ([⟨"GroupX", false, true, [⟨"Ship1", false, true⟩, ⟨"Ship2", false, true⟩]⟩],
       1, 2) := by decide

/-! ## Claims about the lazy cache -/

/-- C10: for every raw item id that normalizes to the empty string,
`loadInspectionHistoryForVessel` resolves immediately with `{rows: []}` and
no error flag, and leaves the whole cache state untouched: no adapter fetch
is started and no cache entry is created. -/
theorem loadInspection_empty_id (raw : String) (s : CacheState)
    (hv : normalizeGuid raw = "") :
    loadInspectionHistoryForVessel raw s = (CallResult.value ⟨[], false⟩, s) := by
  unfold loadInspectionHistoryForVessel
  simp [hv]

theorem loadInspection_empty_id_witness :
    loadInspectionHistoryForVessel ("  \x7b\x7d ") initState
      = (CallResult.value ⟨[], false⟩, initState) :=
  loadInspection_empty_id ("  \x7b\x7d ") initState (by decide)

/-- C4: for an item whose cache entry is loaded,
`loadInspectionHistoryForVessel` resolves immediately with the cached rows
and leaves the state untouched — in particular no adapter fetch happens. -/
theorem loadInspection_loaded_no_fetch (raw : String) (s : CacheState)
    (c : CacheEntry)
    (hv : ¬ normalizeGuid raw = "")
    (hc : s.cache (normalizeGuid raw) = some c)
    (hl : c.loaded = true) :
    loadInspectionHistoryForVessel raw s = (CallResult.value ⟨c.rows, false⟩, s) := by
  unfold loadInspectionHistoryForVessel
  simp [hv, hc, hl]

theorem loadInspection_loaded_no_fetch_witness :
    loadInspectionHistoryForVessel ("shipa") loadedShipA
      = (CallResult.value ⟨[⟨"2025-03-15", "98/100"⟩], false⟩, loadedShipA) :=
  loadInspection_loaded_no_fetch ("shipa") loadedShipA
    ⟨true, false, [⟨"2025-03-15", "98/100"⟩], none⟩
    (by decide) (by decide) rfl

/-- C2: when the fetch behind pending promise `p` fails, the `.catch`
handler fulfills (never rejects) every joined caller with
`{rows: [], error: true}`, and the item's cache entry becomes the spec's
`failed` state with empty rows. -/
theorem settleFailure_resolves_with_error (p : Nat) (v : String) (s : CacheState)
    (h : s.inflight p = some v) :
    ((settleFailure p s).map Prod.fst) = some (Outcome.fulfilled ⟨[], true⟩) ∧
    ((settleFailure p s).map fun r => r.2.cache v)
      = some (some ⟨false, false, [], none⟩) ∧
    ((settleFailure p s).map fun r => specStateOf (r.2.cache v))
      = some SpecState.failedS := by
  unfold settleFailure
  simp [h, specStateOf]

theorem settleFailure_resolves_with_error_witness :
    ((settleFailure 0 (loadInspectionHistoryForVessel ("shipB") initState).2).map
        Prod.fst) = some (Outcome.fulfilled ⟨[], true⟩) ∧
    ((settleFailure 0 (loadInspectionHistoryForVessel ("shipB") initState).2).map
        fun r => r.2.cache ("shipB")) = some (some ⟨false, false, [], none⟩) ∧
    ((settleFailure 0 (loadInspectionHistoryForVessel ("shipB") initState).2).map
        fun r => specStateOf (r.2.cache ("shipB"))) = some SpecState.failedS :=
  settleFailure_resolves_with_error 0 ("shipB")
    (loadInspectionHistoryForVessel ("shipB") initState).2 (by decide)

/-- C3: failure is never sticky: on an item whose cache entry is in the
`failed` state, the next `loadInspectionHistoryForVessel` call starts a
brand-new adapter fetch — it returns a fresh pending promise, increments the
per-id fetch count, and puts the entry back into `loading`. -/
theorem loadInspection_retry_after_failure (raw : String) (s : CacheState)
    (c : CacheEntry)
    (hv : ¬ normalizeGuid raw = "")
    (hc : s.cache (normalizeGuid raw) = some c)
    (hf : specStateOf (some c) = SpecState.failedS) :
    (loadInspectionHistoryForVessel raw s).1 = CallResult.pending s.nextId ∧
    (loadInspectionHistoryForVessel raw s).2.fetchCount (normalizeGuid raw)
      = s.fetchCount (normalizeGuid raw) + 1 ∧
    specStateOf ((loadInspectionHistoryForVessel raw s).2.cache (normalizeGuid raw))
      = SpecState.loadingS := by
  have h1 : c.loaded = false := by
    by_cases h : c.loaded
    · simp [specStateOf, h] at hf
    · simpa using h
  have h2 : c.loading = false := by
    by_cases h : c.loading
    · simp [specStateOf, h1, h] at hf
    · simpa using h
  unfold loadInspectionHistoryForVessel startFetch
  cases hp : c.promise <;> simp [hv, hc, h1, h2, hp, specStateOf]

theorem loadInspection_retry_after_failure_witness :
    (loadInspectionHistoryForVessel ("shipB") failedShipB).1
      = CallResult.pending failedShipB.nextId ∧
    (loadInspectionHistoryForVessel ("shipB") failedShipB).2.fetchCount
        (normalizeGuid ("shipB"))
      = failedShipB.fetchCount (normalizeGuid ("shipB")) + 1 ∧
    specStateOf ((loadInspectionHistoryForVessel ("shipB") failedShipB).2.cache
        (normalizeGuid ("shipB"))) = SpecState.loadingS :=
  loadInspection_retry_after_failure ("shipB") failedShipB
    ⟨false, false, [], none⟩ (by decide) (by decide) (by decide)

/-- C1: request deduplication.  From a state with no cache entry for the id,
the first call starts exactly one adapter fetch and returns a pending
promise; a second call made before that fetch settles returns the very same
pending promise, changes nothing, and in particular the fetch count for the
id over the whole interval is exactly one more than before. -/
theorem loadInspection_dedup (raw : String) (s0 : CacheState)
    (hv : ¬ normalizeGuid raw = "")
    (hc : s0.cache (normalizeGuid raw) = none) :
    (firstCall raw s0).1 = CallResult.pending s0.nextId ∧
    (secondCall raw s0).1 = CallResult.pending s0.nextId ∧
    (secondCall raw s0).2 = (firstCall raw s0).2 ∧
    (firstCall raw s0).2.fetchCount (normalizeGuid raw)
      = s0.fetchCount (normalizeGuid raw) + 1 ∧
    (secondCall raw s0).2.fetchCount (normalizeGuid raw)
      = s0.fetchCount (normalizeGuid raw) + 1 := by
  unfold firstCall secondCall loadInspectionHistoryForVessel startFetch
  simp [hv, hc]

theorem loadInspection_dedup_witness :
    (firstCall ("shipA") initState).1 = CallResult.pending initState.nextId ∧
    (secondCall ("shipA") initState).1 = CallResult.pending initState.nextId ∧
    (secondCall ("shipA") initState).2 = (firstCall ("shipA") initState).2 ∧
    (firstCall ("shipA") initState).2.fetchCount (normalizeGuid ("shipA"))
      = initState.fetchCount (normalizeGuid ("shipA")) + 1 ∧
    (secondCall ("shipA") initState).2.fetchCount (normalizeGuid ("shipA"))
      = initState.fetchCount (normalizeGuid ("shipA")) + 1 :=
  loadInspection_dedup ("shipA") initState (by decide) rfl

/-! ## Claims about the tree model -/

/-- A concrete page: one expanded liner with one expanded ship, empty cache. -/
def pageState0 : PageState :=
  ⟨[⟨"GroupX", true, true, [⟨"Ship1", true, true⟩, ⟨"Ship2", false, true⟩]⟩],
   initState⟩

/-- C5: closing a group cascades: after `toggleGroup` to the closed state on
the group at index `i`, every child ship of that group has `open = false`,
and the inspection cache is untouched. -/
theorem toggleGroup_close_cascades (ps : PageState) (i : Nat)
    (hi : i < ps.tree.length) :
    (((toggleGroupPage ps i false).tree[i]?).map
        fun l => l.ships.all fun sh => !sh.isOpen) = some true ∧
    (toggleGroupPage ps i false).insp = ps.insp := by
  unfold toggleGroupPage toggleGroup
  have h : ps.tree[i]? = some ps.tree[i] := List.getElem?_eq_getElem hi
  rw [h]
  refine ⟨?_, rfl⟩
  rw [List.getElem?_set_eq_of_lt _ hi]
  simp [List.all_map]

theorem toggleGroup_close_cascades_witness :
    (((toggleGroupPage pageState0 0 false).tree[0]?).map
        fun l => l.ships.all fun sh => !sh.isOpen) = some true ∧
    (toggleGroupPage pageState0 0 false).insp = pageState0.insp :=
  toggleGroup_close_cascades pageState0 0 (by decide)

/-! ## Filter lemmas -/

/-- Applying `processShip` never changes a ship's label. -/
theorem processShip_name (q : String) (lm : Bool) (sh : ShipNode) :
    (processShip q lm sh).name = sh.name := by
  unfold processShip
  split <;> rfl

/-- With the empty query every ship is visible and otherwise untouched. -/
theorem processShip_empty_fun (lm : Bool) :
    processShip ("") lm = fun sh => { sh with visible := true } :=
  funext fun _ => rfl

/-- With the empty query `applyFilterLiner` resets the liner: visible,
collapsed, every ship visible and collapsed; the tallies count the liner and
all of its ships. -/
theorem applyFilterLiner_empty (l : LinerNode) :
    applyFilterLiner ("") l = (resetLiner l, true, l.ships.length) := by
  unfold applyFilterLiner
  simp [linerVisOf, processShip_empty_fun, List.map_map, Function.comp,
    resetLiner, resetShip, List.countP_map]

/-- Clearing twice: `resetLiner` is idempotent. -/
theorem resetLiner_idem (l : LinerNode) :
    resetLiner (resetLiner l) = resetLiner l := by
  simp [resetLiner, resetShip, List.map_map, Function.comp]

/-- A `Bool.any` over ships whose predicate only reads the label factors
through the label list. -/
theorem any_name (p : String → Bool) (xs : List ShipNode) :
    (xs.any fun sh => p sh.name) = ((xs.map fun sh => sh.name).any p) := by
  induction xs with
  | nil => rfl
  | cons a as ih => simp [ih]

/-- With the empty query the whole pass maps `resetLiner` over the tree. -/
theorem applyFilterTree_empty_fst (t : List LinerNode) :
    (applyFilterTree ("") t).1 = t.map resetLiner := by
  induction t with
  | nil => rfl
  | cons l rest ih => simp [applyFilterTree, applyFilterLiner_empty, ih]

/-- C6: applying the filter with a query that normalizes to the empty string
(empty or whitespace-only), from any tree state — in particular right after
any non-empty filter — resets every liner and every ship to
`visible = true`, `open = false`. -/
theorem applyFilter_empty_resets (raw : String) (t : List LinerNode)
    (h : lowerStr (jsTrim raw) = "") :
    (applyFilter raw t).1 = t.map resetLiner := by
  unfold applyFilter
  rw [h, applyFilterTree_empty_fst]

theorem applyFilter_empty_resets_witness :
    (applyFilter ("   ") (applyFilter ("ship1") tree0).1).1
      = ((applyFilter ("ship1") tree0).1).map resetLiner :=
  applyFilter_empty_resets ("   ") (applyFilter ("ship1") tree0).1 (by decide)

/-- Applying `processShip` twice is the same as once. -/
theorem processShip_idem (q : String) (lm : Bool) (sh : ShipNode) :
    processShip q lm (processShip q lm sh) = processShip q lm sh := by
  unfold processShip
  by_cases h : shipVis q lm sh.name = true
  · simp [h]
  · simp [h]

/-- On an invisible liner every ship is forced shut but shown; doing that
twice is the same as once. -/
theorem closeShowShip_idem (sh : ShipNode) :
    ({ ({ sh with isOpen := false, visible := true } : ShipNode) with
        isOpen := false, visible := true } : ShipNode)
      = { sh with isOpen := false, visible := true } := rfl

/-- One liner pass is idempotent: filtering an already-filtered liner with
the same query changes nothing, including the two tallies. -/
theorem applyFilterLiner_idem (q : String) (l : LinerNode) :
    applyFilterLiner q (applyFilterLiner q l).1 = applyFilterLiner q l := by
  by_cases hq : q = ""
  · subst hq
    rw [applyFilterLiner_empty, applyFilterLiner_empty, resetLiner_idem]
    simp [resetLiner]
  · by_cases hvis : linerVisOf q l = true
    · have e1 : applyFilterLiner q l
          = ({ l with
                visible := true
                isOpen := true
                ships := l.ships.map (processShip q (linerMatchOf q l)) }, true,
             (l.ships.map (processShip q (linerMatchOf q l))).countP
               fun sh => sh.visible) := by
        unfold applyFilterLiner
        simp [hvis, hq]
      rw [e1]
      have hlm : linerMatchOf q
          ({ l with
              visible := true
              isOpen := true
              ships := l.ships.map (processShip q (linerMatchOf q l)) } : LinerNode)
          = linerMatchOf q l := by
        simp [linerMatchOf]
      have hvis2 : linerVisOf q
          ({ l with
              visible := true
              isOpen := true
              ships := l.ships.map (processShip q (linerMatchOf q l)) } : LinerNode)
          = true := by
        unfold linerVisOf anyShipMatchOf at hvis ⊢
        simp only [linerMatchOf] at hvis ⊢
        simpa [List.any_map, Function.comp, processShip_name] using hvis
      unfold applyFilterLiner
      simp only [hvis2, hlm]
      simp [List.map_map, Function.comp, processShip_idem, hq]
      congr 1
      funext sh
      simp [Function.comp, processShip_idem]
    · have e1 : applyFilterLiner q l
          = ({ l with
                visible := false
                isOpen := false
                ships := l.ships.map fun sh =>
                  { sh with isOpen := false, visible := true } }, false, 0) := by
        unfold applyFilterLiner
        simp [hvis]
      rw [e1]
      have hvis2 : linerVisOf q
          ({ l with
              visible := false
              isOpen := false
              ships := l.ships.map fun sh =>
                { sh with isOpen := false, visible := true } } : LinerNode)
          = false := by
        unfold linerVisOf anyShipMatchOf at hvis ⊢
        simp only [linerMatchOf] at hvis ⊢
        simpa [List.any_map, Function.comp] using hvis
      unfold applyFilterLiner
      simp [hvis2, List.map_map, Function.comp]

/-- The whole pass is idempotent on the already-normalized query. -/
theorem applyFilterTree_idem (q : String) (t : List LinerNode) :
    applyFilterTree q (applyFilterTree q t).1 = applyFilterTree q t := by
  induction t with
  | nil => rfl
  | cons l rest ih =>
    simp only [applyFilterTree]
    simp [applyFilterLiner_idem, ih]

/-- C7: `applyFilter` is idempotent — for every query and every tree state,
running the filter twice with the same raw query yields exactly the same
tree (all `visible`/`open` flags) and the same `matchedLiners`/`matchedShips`
tallies as running it once. -/
theorem applyFilter_idempotent (raw : String) (t : List LinerNode) :
    applyFilter raw (applyFilter raw t).1 = applyFilter raw t := by
  unfold applyFilter
  exact applyFilterTree_idem (lowerStr (jsTrim raw)) t

/-- C8: a query that matches a liner's name reveals all of that liner's
ships: on such a liner the pass marks every ship visible (regardless of any
ship-name match), counts the liner as matched and counts every one of its
ships into `matchedShips`. -/
theorem groupNameMatch_reveals_children (q : String) (l : LinerNode)
    (hq : ¬ q = "")
    (hm : idxHit (lowerStr l.name) q = true) :
    ((applyFilterLiner q l).1.ships.all fun sh => sh.visible) = true ∧
    (applyFilterLiner q l).2.1 = true ∧
    (applyFilterLiner q l).2.2 = l.ships.length := by
  have hlm : linerMatchOf q l = true := by simp [linerMatchOf, hm]
  have hv : linerVisOf q l = true := by simp [linerVisOf, hlm]
  unfold applyFilterLiner
  simp [hv, hq, hlm, processShip, shipVis, List.all_map, List.countP_map,
    Function.comp]

theorem groupNameMatch_reveals_children_witness :
    applyFilter ("groupx") tree0 =
      ([⟨"GroupX", true, true, [⟨"Ship1", false, true⟩, ⟨"Ship2", false, true⟩]⟩],
       1, 2) ∧
    ((applyFilterLiner ("groupx") linerGX).1.ships.all fun sh => sh.visible) = true ∧
    (applyFilterLiner ("groupx") linerGX).2.1 = true ∧
    (applyFilterLiner ("groupx") linerGX).2.2 = linerGX.ships.length :=
  ⟨by decide, groupNameMatch_reveals_children ("groupx") linerGX (by decide) (by decide)⟩

/-! ## C9: the success handler does filter the adapter's rows -/

/-- The `forEach`/`push` loop is the `filterMap` of the per-row body. -/
theorem foldl_push_eq_filterMap (today : Date3) (rows : List RawIncident)
    (acc : List DetailRow) :
    rows.foldl (fun acc r =>
        match rowOut today r with
        | none => acc
        | some dr => acc ++ [dr]) acc
      = acc ++ rows.filterMap (rowOut today) := by
  induction rows generalizing acc with
  | nil => simp
  | cons r rest ih =>
    simp only [List.foldl_cons, List.filterMap_cons]
    cases h : rowOut today r with
    | none => simp [h, ih]
    | some dr => simp [h, ih]

/-- C9 counterexample: it is NOT the case that every row produced by the
adapter ends up cached/resolved — a row whose inspection date lies outside
the last five years is dropped by `loadInspectionHistoryForVessel`'s success
handler before caching, e.g. a 2000-01-01 inspection against a 2026-10-11
today. -/
theorem cache_no_filtering_counterexample :
    ¬ ∀ (rows : List RawIncident) (today : Date3),
        (processIncidentRows rows today).length = rows.length :=
  fun h =>
    absurd (h [⟨some ("2000-01-01T00:00:00Z"), some 95⟩] ⟨2026, 10, 11⟩)
      (by decide)

/-- C9 (amended): the rows cached and resolved by
`loadInspectionHistoryForVessel` are NOT the adapter's rows taken as final:
the success handler applies client-side temporal filtering and formatting —
exactly the adapter rows with a non-null date parseable and within the last
five years survive, formatted as `{date, score}` and sorted by date
descending. -/
theorem processIncidentRows_amended (rows : List RawIncident) (today : Date3) :
    processIncidentRows rows today
      = List.insertionSort histDesc (rows.filterMap (rowOut today)) ∧
    ∀ dr : DetailRow, dr ∈ processIncidentRows rows today ↔
      ∃ r ∈ rows, rowOut today r = some dr := by
  have h1 : processIncidentRows rows today
      = List.insertionSort histDesc (rows.filterMap (rowOut today)) := by
    unfold processIncidentRows
    rw [foldl_push_eq_filterMap]
    simp
  refine ⟨h1, fun dr => ?_⟩
  rw [h1, (List.perm_insertionSort histDesc _).mem_iff, List.mem_filterMap]

end ShipScores
